import Mathlib

/-!
Verification of the rememepy substitution core.

The definitions below are a shallow embedding of
`src/rememepy/supporting_functions.py` and `src/rememepy/substitution.py`.
Images are modelled as their width, height and a total pixel accessor.
Python `None` becomes `Option.none`, raised exceptions become
`Except.error`, machine-independent Python integers become `Int` (or `Nat`
where the source value is a loop index), and the float coverage ratio of
the validator becomes an exact rational.
-/

/-- An RGB color triple.  Pixel colors in the source are integers 0..255;
the k-means centroids are floating point, but they enter only through the
uninterpreted clustering function, so the embedding keeps integer
precision for color components (no verified claim depends on a centroid
value). -/
def Color := Int × Int × Int

instance : DecidableEq Color := by
  unfold Color
  infer_instance

/-- An image: width, height and a total per-pixel accessor.  The source only
reads pixels inside the bounds, so totalizing the accessor is harmless. -/
structure Img where
  width : Nat
  height : Nat
  pix : Nat → Nat → Color

/-- Errors raised by the embedded code and its collaborators: `stateError`
is the ValueError of `validate_last_substitution`, `invalidParameter` the
ValueError SciPy's k-means raises for a cluster count below one, and
`resizeError` the ValueError ("height and width must be > 0") Pillow's
`resize` raises for a target dimension below one. -/
inductive SubError where
  | stateError
  | invalidParameter
  | resizeError
deriving DecidableEq

/-- Sum of the three channels of a color (`color[0] + color[1] + color[2]`). -/
def colorSum (c : Color) : Int := c.1 + c.2.1 + c.2.2

/-- Embeds `supporting_functions.are_colors_similar`: the absolute difference
of the channel sums must be strictly below the tolerance. -/
def are_colors_similar (color1 color2 : Color) (tolerance : Int) : Bool :=
  (colorSum color2 - colorSum color1).natAbs < tolerance

/-- The repeated width update of `find_placement` lines 72-75 and 83-86:
when both `line_start` and `last_different` are known, raise
`substitute_width` to `last_different.x - line_start.x` if that is
larger. -/
def updW (ls ld : Option (Nat × Nat)) (w : Int) : Int :=
  match ls, ld with
  | some a, some b => if w < (b.1 : Int) - (a.1 : Int) then (b.1 : Int) - (a.1 : Int) else w
  | _, _ => w

/-- One row of the scan in `supporting_functions.find_placement` (the inner
`for x in range(template_width)` loop, lines 58-86).  Arguments `x` and
`fuel` walk the remaining pixels of row `y`; `tol`, `lineStart`, `lastDiff`
and `subW` are the loop variables `tolerance`, `line_start`,
`last_different` and `substitute_width`.  Returns the final `line_start`,
the final `substitute_width` and the `passed` flag (`false` when the
tolerance-exhausted `break` fired). -/
def scanRowFrom (img : Img) (dom : Color) (y : Nat) :
    Nat → Nat → Int → Option (Nat × Nat) → Option (Nat × Nat) → Int →
    Option (Nat × Nat) × Int × Bool
  | _, 0, _, lineStart, _, subW => (lineStart, subW, true)
  | x, fuel + 1, tol, lineStart, lastDiff, subW =>
    if are_colors_similar (img.pix x y) dom 30 then
      let t := tol - 1
      if t = 0 then (lineStart, subW, false)
      else
        let w1 := updW lineStart lastDiff subW
        let w2 := updW lineStart lastDiff w1
        scanRowFrom img dom y (x + 1) fuel t lineStart lastDiff w2
    else
      let ld : Option (Nat × Nat) := some (x, y)
      let ls : Option (Nat × Nat) :=
        match lineStart with
        | none => some (x, y)
        | some p => some p
      let w1 := updW ls ld subW
      scanRowFrom img dom y (x + 1) fuel tol ls ld w1

/-- Scan of one full row `y`, entered with the row-fresh state of lines
52-55 (`tolerance = template_width // 2`, no `line_start`, no
`last_different`) and the incoming global `substitute_width`. -/
def scanRow (img : Img) (dom : Color) (y : Nat) (subW : Int) :
    Option (Nat × Nat) × Int × Bool :=
  scanRowFrom img dom y 0 img.width ((img.width / 2 : Nat) : Int) none none subW

/-- The outer `for y in range(template_height)` loop of
`supporting_functions.find_placement` (lines 51-96).  `subW`, `subH`, `pos`
and `streak` are `substitute_width`, `substitute_height`,
`starting_position` and `current_matching_lines_streak`; the result is
`(starting_position, substitute_width, substitute_height)`. -/
def scanRowsFrom (img : Img) (dom : Color) :
    Nat → Nat → Int → Int → Option (Int × Int) → Int →
    Option (Int × Int) × Int × Int
  | _, 0, subW, subH, pos, _ => (pos, subW, subH)
  | y, fuel + 1, subW, subH, pos, streak =>
    let r := scanRow img dom y subW
    let w := r.2.1
    if r.2.2 = true ∧ y ≠ img.height - 1 then
      scanRowsFrom img dom (y + 1) fuel w subH pos (streak + 1)
    else
      match r.1 with
      | some p =>
        if subH < streak then
          scanRowsFrom img dom (y + 1) fuel w streak
            (some ((p.1 : Int), (p.2 : Int) - streak)) 0
        else scanRowsFrom img dom (y + 1) fuel w subH pos 0
      | none => scanRowsFrom img dom (y + 1) fuel w subH pos 0

/-- Embeds `supporting_functions.find_placement`: returns the best starting
position (possibly undefined) together with the accumulated substitute
width and height. -/
def find_placement (img : Img) (dom : Color) : Option (Int × Int) × Int × Int :=
  scanRowsFrom img dom 0 img.height 0 0 none 0

/-- The x-coordinates of the dissimilar pixels the row scan sees in row `y`,
in scan order: the walk stops exactly where the tolerance `break` of the
source stops it. -/
def rowDissimXs (img : Img) (dom : Color) (y : Nat) :
    Nat → Nat → Int → List Nat
  | _, 0, _ => []
  | x, fuel + 1, tol =>
    if are_colors_similar (img.pix x y) dom 30 then
      if tol - 1 = 0 then []
      else rowDissimXs img dom y (x + 1) fuel (tol - 1)
    else x :: rowDissimXs img dom y (x + 1) fuel tol

/-- Span of a list of x-coordinates: last element minus first element,
zero when the list is empty. -/
def spanOf : List Nat → Int
  | [] => 0
  | a :: l => (l.getLastD a : Int) - (a : Int)

/-- The dissimilar-run span of row `y`: x of the last dissimilar pixel the
scan of row `y` sees minus x of the first one (0 when none is seen). -/
def rowSpanVal (img : Img) (dom : Color) (y : Nat) : Int :=
  spanOf (rowDissimXs img dom y 0 img.width ((img.width / 2 : Nat) : Int))

/-- Number of pixels of row `y` (among `fuel` pixels starting at `x`) whose
color is similar to the dominant color. -/
def countSimFrom (img : Img) (dom : Color) (y : Nat) : Nat → Nat → Nat
  | _, 0 => 0
  | x, fuel + 1 =>
    (if are_colors_similar (img.pix x y) dom 30 then 1 else 0) +
      countSimFrom img dom y (x + 1) fuel

/-- Number of pixels in the whole of row `y` similar to the dominant color. -/
def countSimRow (img : Img) (dom : Color) (y : Nat) : Nat :=
  countSimFrom img dom y 0 img.width

/-- White, the fixed fallback dominant color of `Generator.substitute`. -/
def whiteColor : Color := (255, 255, 255)

/-- All pixels of an image flattened row-major, as in
`ar.reshape(np.prod(shape[:2]), shape[2])` of `find_dominant_color`. -/
def imagePixels (img : Img) : List Color :=
  (List.range img.height).flatMap fun y =>
    (List.range img.width).map fun x => img.pix x y

/-- Squared Euclidean distance between two colors, the metric of
`scipy.cluster.vq.vq`. -/
def sqDist (a b : Color) : Int :=
  (a.1 - b.1) ^ 2 + (a.2.1 - b.2.1) ^ 2 + (a.2.2 - b.2.2) ^ 2

/-- Worker for `vqNearest`: walks the remaining centroids keeping the index
of the closest one seen so far. -/
def vqNearestGo : List Color → Color → Nat → Nat → Int → Nat
  | [], _, _, best, _ => best
  | c :: cs, p, i, best, bestD =>
    if sqDist p c < bestD then vqNearestGo cs p (i + 1) i (sqDist p c)
    else vqNearestGo cs p (i + 1) best bestD

/-- Index of the centroid nearest to `p` (first index on ties, as argmin). -/
def vqNearest (codes : List Color) (p : Color) : Nat :=
  match codes with
  | [] => 0
  | c :: cs => vqNearestGo cs p 1 0 (sqDist p c)

/-- Worker for `argmaxIdx`. -/
def argmaxGo : List Nat → Nat → Nat → Nat → Nat
  | [], _, best, _ => best
  | n :: ns, i, best, bestV =>
    if bestV < n then argmaxGo ns (i + 1) i n
    else argmaxGo ns (i + 1) best bestV

/-- Index of the first maximal entry of a list (`np.argmax`). -/
def argmaxIdx : List Nat → Nat
  | [] => 0
  | n :: ns => argmaxGo ns 1 0 n

/-- Embeds `supporting_functions.find_dominant_color` (without the unused
resize option, which `substitute` never passes).  The k-means call is an
external SciPy routine: it is modelled by the uninterpreted argument
`kmeansFn` mapping the flattened pixel vectors and the cluster count to the
centroid list, except for its documented rejection of fewer than one
cluster (SciPy raises ValueError when `k < 1`), which the embedding keeps.
The subsequent code assignment (`vq`) and argmax follow the source; the
histogram of `np.histogram(vecs, len(codes))` is modelled as exact
per-index counts, which agrees with NumPy when the assigned indices span
the centroid list and is an abstraction otherwise; the dominant centroid
is looked up by the argmax index (SciPy returns at least one centroid for
an accepted `k`, so the lookup default is never reached under the real
collaborator).  No verified claim depends on this path beyond the
rejection of `k < 1`. -/
def find_dominant_color (kmeansFn : List Color → Int → List Color)
    (img : Img) (dominant_clusters_amount : Int) : Except SubError Color :=
  if dominant_clusters_amount < 1 then Except.error SubError.invalidParameter
  else
    let ar := imagePixels img
    let codes := kmeansFn ar dominant_clusters_amount
    let vecs := ar.map (vqNearest codes)
    let counts := (List.range codes.length).map fun i => vecs.count i
    let indexMax := argmaxIdx counts
    Except.ok (codes.getD indexMax whiteColor)

/-- The validation state of a `Generator` instance: the three fields set by
`__init__` to `None` and overwritten by every `substitute` call. -/
structure GenState where
  last_placement_position : Option (Int × Int)
  last_resized_substitute : Option Img
  last_template : Option Img

/-- A freshly constructed `Generator`: all three fields are `None`. -/
def initState : GenState := ⟨none, none, none⟩

/-- Models the external resize collaborator (`PIL.Image.resize`): Pillow
rejects any target dimension below one with a ValueError; otherwise the
result has exactly the requested size, with the content a stretch of the
input (nearest-neighbour sampling stands in for the resampling filter,
which the core never inspects). -/
def imgResize (img : Img) (sz : Int × Int) : Except SubError Img :=
  if sz.1 < 1 ∨ sz.2 < 1 then Except.error SubError.resizeError
  else Except.ok ⟨sz.1.toNat, sz.2.toNat, fun x y =>
    img.pix (x * img.width / max sz.1.toNat 1) (y * img.height / max sz.2.toNat 1)⟩

/-- Models the external paste collaborator (`PIL.Image.paste`): the overlay
is drawn onto the base at the given position; PIL pastes at the origin when
the box argument is `None`. -/
def imgPaste (base overlay : Img) (pos : Option (Int × Int)) : Img :=
  let p := pos.getD (0, 0)
  ⟨base.width, base.height, fun x y =>
    if p.1 ≤ (x : Int) ∧ (x : Int) < p.1 + overlay.width ∧
        p.2 ≤ (y : Int) ∧ (y : Int) < p.2 + overlay.height then
      overlay.pix ((x : Int) - p.1).toNat ((y : Int) - p.2).toNat
    else base.pix x y⟩

/-- The dominant-color selection of `Generator.substitute` line 43: white
unless `use_dominant_color` is set, in which case the clusterer runs with
the given cluster count. -/
def dominant_color_choice (kmeansFn : List Color → Int → List Color)
    (template : Img) (use_dominant_color : Bool)
    (dominant_cluster_amount : Int) : Except SubError Color :=
  if !use_dominant_color then Except.ok whiteColor
  else find_dominant_color kmeansFn template dominant_cluster_amount

/-- Embeds `Generator.substitute`.  Image decoding is out of scope: the
already-decoded template and substitute images are taken as arguments.  The
result is the new generator state together with the composed image; errors
of the clustering path and of the resize collaborator propagate, and the
three state fields are stored only after both succeed, exactly as in the
source (the assignments of lines 51-53 run after resize and paste).  The
source stores the pasted template itself (paste mutates in place) and the
placement position exactly as `find_placement` returned it. -/
def substitute (kmeansFn : List Color → Int → List Color) (st : GenState)
    (template sub : Img) (use_dominant_color : Bool)
    (dominant_cluster_amount : Int) (resize_to : Option (Nat × Nat)) :
    Except SubError (GenState × Img) :=
  match resize_to with
  | some sz =>
    (imgResize sub ((sz.1 : Int), (sz.2 : Int))).bind fun resized =>
      let pos : Option (Int × Int) := some (0, 0)
      let result := imgPaste template resized pos
      Except.ok (⟨pos, some resized, some result⟩, result)
  | none =>
    (dominant_color_choice kmeansFn template use_dominant_color
        dominant_cluster_amount).bind fun dc =>
      let pr := find_placement template dc
      (imgResize sub pr.2).bind fun resized =>
        let result := imgPaste template resized pr.1
        Except.ok (⟨pr.1, some resized, some result⟩, result)

/-- Embeds `Generator.validate_last_substitution`.  The Python guard
`all([...])` fails exactly when one of the three stored fields is `None`
(a stored image and a stored position tuple are always truthy); thresholds
and the coverage ratio are exact rationals. -/
def validate_last_substitution (st : GenState)
    (threshold_min threshold_max : ℚ) : Except SubError Bool :=
  match st.last_template, st.last_resized_substitute, st.last_placement_position with
  | some t, some s, some pos =>
    let cov : ℚ := ((s.width : ℚ) * s.height) / ((t.width : ℚ) * t.height)
    if ¬(threshold_min ≤ cov ∧ cov ≤ threshold_max) then Except.ok false
    else if pos.1 < 0 ∨ pos.2 < 0 ∨ pos.1 + (s.width : Int) > (t.width : Int) ∨
        pos.2 + (s.height : Int) > (t.height : Int) then Except.ok false
    else Except.ok true
  | _, _, _ => Except.error SubError.stateError

/-- The integer list `range(a, b)` of Python. -/
def pyRange (a b : Int) : List Int :=
  (List.range (b - a).toNat).map fun i => a + i

/-- The candidate `(use_dominant_color, cluster_amount)` pairs of
`Generator.substitute_until_valid` in loop order, before the
`tried_variants` filter. -/
def variantsList (initial : Bool) (r : Int × Int) : List (Bool × Int) :=
  ([initial, !initial]).flatMap fun u =>
    (pyRange r.1 (r.2 + 1)).map fun k => (u, k)

/-- The loop body of `Generator.substitute_until_valid`: walks the candidate
pairs, skips the ones already in `tried_variants`, performs the
substitution and validation for the rest, and stops on the first validated
attempt (or propagates a raised error).  The second component records, for
specification purposes, the variants actually evaluated, in order. -/
def untilValidGo (kmeansFn : List Color → Int → List Color)
    (template sub : Img) :
    List (Bool × Int) → List (Bool × Int) → GenState → List (Bool × Int) →
    Except SubError (GenState × Option Img) × List (Bool × Int)
  | [], _, st, evald => (Except.ok (st, none), evald)
  | v :: vs, tried, st, evald =>
    if v ∈ tried then untilValidGo kmeansFn template sub vs tried st evald
    else
      match substitute kmeansFn st template sub v.1 v.2 none with
      | Except.error e => (Except.error e, evald ++ [v])
      | Except.ok (st1, img) =>
        match validate_last_substitution st1 (1 / 10) (9 / 10) with
        | Except.error e => (Except.error e, evald ++ [v])
        | Except.ok true => (Except.ok (st1, some img), evald ++ [v])
        | Except.ok false =>
          untilValidGo kmeansFn template sub vs (v :: tried) st1 (evald ++ [v])

/-- Embeds `Generator.substitute_until_valid`: the default thresholds
(0.1 and 0.9) of `validate_last_substitution` are its exact rationals;
the engine state is threaded explicitly; the Python `return None` after
the loops is `Option.none` in the result. -/
def substitute_until_valid (kmeansFn : List Color → Int → List Color)
    (st : GenState) (template sub : Img)
    (initial_use_dominant_color : Bool) (cluster_range : Int × Int) :
    Except SubError (GenState × Option Img) :=
  (untilValidGo kmeansFn template sub
    (variantsList initial_use_dominant_color cluster_range) [] st []).1

/-- The `(use_dominant_color, cluster_amount)` pairs a run of
`substitute_until_valid` actually evaluates, in order. -/
def evaluatedVariants (kmeansFn : List Color → Int → List Color)
    (st : GenState) (template sub : Img)
    (initial_use_dominant_color : Bool) (cluster_range : Int × Int) :
    List (Bool × Int) :=
  (untilValidGo kmeansFn template sub
    (variantsList initial_use_dominant_color cluster_range) [] st []).2


/-! ### Concrete inputs used by witnesses and counterexamples -/

/-- A clustering stand-in for closed evaluations; the paths exercised below
never reach it (they either disable clustering or fail before the k-means
call). -/
def kfZero : List Color → Int → List Color := fun _ _ => []

/-- A 1-by-1 all-white image. -/
def imgWhite1 : Img := ⟨1, 1, fun _ _ => whiteColor⟩

/-- A 2-by-2 image every pixel of which is dissimilar to white. -/
def imgDark2 : Img := ⟨2, 2, fun _ _ => (0, 0, 0)⟩

/-- A 2-by-1 image: one pixel similar to black, one dissimilar. -/
def imgHalf2 : Img := ⟨2, 1, fun x _ => if x = 0 then (0, 0, 0) else (200, 200, 200)⟩

/-- A 1-by-1 black image (its single pixel is similar to black). -/
def imgDark1 : Img := ⟨1, 1, fun _ _ => (0, 0, 0)⟩

/-- A 2-by-2 all-white image. -/
def imgWhite2 : Img := ⟨2, 2, fun _ _ => whiteColor⟩

/-- The state and image produced by a completed `substitute` call with an
explicit resize override, used to instantiate the validator availability
claim. -/
def subW55res : GenState × Img :=
  match substitute kfZero initState imgWhite1 imgWhite1 false 3 (some (5, 5)) with
  | Except.ok r => r
  | Except.error _ => (initState, imgWhite1)

/-- A 10-by-10 white template for the validator witness. -/
def imgTemplate10 : Img := ⟨10, 10, fun _ _ => whiteColor⟩

/-- A 5-by-5 white substitute for the validator witness. -/
def imgSub5 : Img := ⟨5, 5, fun _ _ => whiteColor⟩

/-- A stored attempt: the 5-by-5 substitute pasted at the origin of the
10-by-10 template. -/
def stAttempt : GenState := ⟨some (0, 0), some imgSub5, some imgTemplate10⟩

/-! ### Lemmas about the row scan -/

/-- `updW` on two known endpoints is a maximum. -/
lemma updW_some_some (a b : Nat × Nat) (w : Int) :
    updW (some a) (some b) w = max w ((b.1 : Int) - (a.1 : Int)) := by
  simp only [updW]
  rcases lt_or_ge w ((b.1 : Int) - (a.1 : Int)) with h | h
  · rw [if_pos h, max_eq_right (le_of_lt h)]
  · rw [if_neg (not_lt.mpr h), max_eq_left h]

/-- `updW` without a recorded start or end does nothing. -/
@[simp] lemma updW_none_left (ld : Option (Nat × Nat)) (w : Int) :
    updW none ld w = w := by
  cases ld <;> rfl

/-- Every x-coordinate recorded by the row walk is at least the walk's
starting column, so the default-carrying last element can only grow. -/
lemma rowDissimXs_getLastD_le (img : Img) (dom : Color) (y : Nat)
    (fuel : Nat) :
    ∀ (x : Nat) (tol : Int) (d : Nat), d ≤ x →
      d ≤ (rowDissimXs img dom y x fuel tol).getLastD d := by
  induction fuel with
  | zero => intro x tol d hd; simp [rowDissimXs]
  | succ f ih =>
    intro x tol d hd
    rw [rowDissimXs]
    by_cases hsim : are_colors_similar (img.pix x y) dom 30
    · rw [if_pos hsim]
      by_cases ht : tol - 1 = 0
      · rw [if_pos ht]; simp
      · rw [if_neg ht]
        exact ih (x + 1) (tol - 1) d (Nat.le_succ_of_le hd)
    · rw [if_neg hsim, List.getLastD_cons]
      exact le_trans hd (ih (x + 1) tol x (Nat.le_succ x))

/-- Width accumulation of the row walk after both endpoints are known: the
final `substitute_width` is the incoming one joined with the span from the
recorded `line_start` to the last dissimilar pixel the walk will see. -/
lemma scanRowFrom_subW_some (img : Img) (dom : Color) (y : Nat)
    (fuel : Nat) :
    ∀ (x : Nat) (tol : Int) (a ya b yb : Nat) (w : Int),
      (b : Int) - (a : Int) ≤ w →
      (scanRowFrom img dom y x fuel tol (some (a, ya)) (some (b, yb)) w).2.1
        = max w (((rowDissimXs img dom y x fuel tol).getLastD b : Int) - (a : Int)) := by
  induction fuel with
  | zero =>
    intro x tol a ya b yb w hw
    simp only [scanRowFrom, rowDissimXs, List.getLastD_nil]
    exact (max_eq_left hw).symm
  | succ f ih =>
    intro x tol a ya b yb w hw
    rw [scanRowFrom, rowDissimXs]
    by_cases hsim : are_colors_similar (img.pix x y) dom 30
    · rw [if_pos hsim, if_pos hsim]
      by_cases ht : tol - 1 = 0
      · rw [if_pos ht, if_pos ht]
        simp only [List.getLastD_nil]
        exact (max_eq_left hw).symm
      · rw [if_neg ht, if_neg ht]
        simp only [updW_some_some, max_eq_left hw]
        exact ih (x + 1) (tol - 1) a ya b yb w hw
    · rw [if_neg hsim, if_neg hsim]
      simp only [updW_some_some, List.getLastD_cons]
      rw [ih (x + 1) tol a ya x y (max w ((x : Int) - (a : Int))) (le_max_right _ _)]
      rw [max_assoc]
      congr 1
      refine max_eq_right ?_
      have hx : (x : Int) ≤ ((rowDissimXs img dom y (x + 1) f tol).getLastD x : Int) := by
        exact_mod_cast rowDissimXs_getLastD_le img dom y f (x + 1) tol x (Nat.le_succ x)
      omega

/-- Width accumulation of the full row walk: starting with no endpoints and
a nonnegative incoming width, the final `substitute_width` is the incoming
one joined with the span of the dissimilar pixels the walk sees. -/
lemma scanRowFrom_subW_none (img : Img) (dom : Color) (y : Nat)
    (fuel : Nat) :
    ∀ (x : Nat) (tol : Int) (w : Int), 0 ≤ w →
      (scanRowFrom img dom y x fuel tol none none w).2.1
        = max w (spanOf (rowDissimXs img dom y x fuel tol)) := by
  induction fuel with
  | zero =>
    intro x tol w hw
    simp only [scanRowFrom, rowDissimXs, spanOf]
    exact (max_eq_left hw).symm
  | succ f ih =>
    intro x tol w hw
    rw [scanRowFrom, rowDissimXs]
    by_cases hsim : are_colors_similar (img.pix x y) dom 30
    · rw [if_pos hsim, if_pos hsim]
      by_cases ht : tol - 1 = 0
      · rw [if_pos ht, if_pos ht]
        simp only [spanOf]
        exact (max_eq_left hw).symm
      · rw [if_neg ht, if_neg ht]
        simp only [updW_none_left]
        exact ih (x + 1) (tol - 1) w hw
    · rw [if_neg hsim, if_neg hsim]
      simp only [updW_some_some, spanOf]
      have h0 : (x : Int) - (x : Int) ≤ max w ((x : Int) - (x : Int)) := le_max_right _ _
      rw [scanRowFrom_subW_some img dom y f (x + 1) tol x y x y _ h0]
      simp only [sub_self, max_self]
      rw [max_eq_left hw]

/-- The full-row version: the row scan raises the incoming global
`substitute_width` exactly to its join with this row's dissimilar span. -/
lemma scanRow_subW (img : Img) (dom : Color) (y : Nat) (w : Int)
    (hw : 0 ≤ w) :
    (scanRow img dom y w).2.1 = max w (rowSpanVal img dom y) :=
  scanRowFrom_subW_none img dom y img.width 0 _ w hw

/-- Tolerance characterization of the row walk: the `break` of line 69 fires
iff the tolerance is at least one and the walk meets at least that many
similar pixels.  (A tolerance of zero or less is decremented past zero and
the `== 0` test never fires again, so such a row can never fail.) -/
lemma scanRowFrom_passed_iff (img : Img) (dom : Color) (y : Nat)
    (fuel : Nat) :
    ∀ (x : Nat) (tol : Int) (ls ld : Option (Nat × Nat)) (w : Int),
      (scanRowFrom img dom y x fuel tol ls ld w).2.2 = false ↔
        1 ≤ tol ∧ tol ≤ (countSimFrom img dom y x fuel : Int) := by
  induction fuel with
  | zero =>
    intro x tol ls ld w
    simp only [scanRowFrom, countSimFrom]
    constructor
    · intro h; exact absurd h (by simp)
    · intro h; omega
  | succ f ih =>
    intro x tol ls ld w
    rw [scanRowFrom.eq_def, countSimFrom]
    simp only []
    by_cases hsim : are_colors_similar (img.pix x y) dom 30
    · rw [if_pos hsim, if_pos hsim]
      by_cases ht : tol - 1 = 0
      · rw [if_pos ht]
        have hcnt : (0 : Int) ≤ (countSimFrom img dom y (x + 1) f : Int) := by positivity
        simp only []
        constructor
        · intro _; push_cast; omega
        · intro _; trivial
      · rw [if_neg ht]
        rw [ih (x + 1) (tol - 1) ls ld (updW ls ld (updW ls ld w))]
        push_cast
        omega
    · rw [if_neg hsim, if_neg hsim]
      rw [ih (x + 1) tol _ _ _]
      push_cast
      omega

/-- The `line_start` a row walk reports always lies in the row it scanned. -/
lemma scanRowFrom_lineStart_row (img : Img) (dom : Color) (y : Nat)
    (fuel : Nat) :
    ∀ (x : Nat) (tol : Int) (ls ld : Option (Nat × Nat)) (w : Int),
      (∀ p, ls = some p → p.2 = y) →
      ∀ p, (scanRowFrom img dom y x fuel tol ls ld w).1 = some p → p.2 = y := by
  induction fuel with
  | zero =>
    intro x tol ls ld w hls p hp
    exact hls p hp
  | succ f ih =>
    intro x tol ls ld w hls p hp
    rw [scanRowFrom.eq_def] at hp
    simp only [] at hp
    by_cases hsim : are_colors_similar (img.pix x y) dom 30
    · rw [if_pos hsim] at hp
      by_cases ht : tol - 1 = 0
      · rw [if_pos ht] at hp
        exact hls p hp
      · rw [if_neg ht] at hp
        exact ih (x + 1) (tol - 1) ls ld _ hls p hp
    · rw [if_neg hsim] at hp
      refine ih (x + 1) tol _ _ _ ?_ p hp
      intro q hq
      cases hls' : ls with
      | none => simp only [hls'] at hq; cases hq; rfl
      | some r =>
        simp only [hls'] at hq
        cases hq
        exact hls q hls'

/-! ### Lemmas about the outer row loop -/

/-- The global `substitute_width` accumulated by the outer loop is the fold
of `max` over the per-row dissimilar spans, seeded with the incoming
width: no branch of the loop ever resets it. -/
lemma scanRowsFrom_subW (img : Img) (dom : Color) (fuel : Nat) :
    ∀ (y : Nat) (subW subH : Int) (pos : Option (Int × Int)) (streak : Int),
      0 ≤ subW →
      (scanRowsFrom img dom y fuel subW subH pos streak).2.1
        = ((List.range' y fuel).map (rowSpanVal img dom)).foldl max subW := by
  induction fuel with
  | zero =>
    intro y subW subH pos streak hw
    simp [scanRowsFrom]
  | succ f ih =>
    intro y subW subH pos streak hw
    have hrow := scanRow_subW img dom y subW hw
    have hw' : 0 ≤ (scanRow img dom y subW).2.1 := by
      rw [hrow]; exact le_trans hw (le_max_left _ _)
    have hfold : ((List.range' y (f + 1)).map (rowSpanVal img dom)).foldl max subW
        = ((List.range' (y + 1) f).map (rowSpanVal img dom)).foldl max
            (scanRow img dom y subW).2.1 := by
      rw [List.range'_succ, List.map_cons, List.foldl_cons, hrow]
    rw [scanRowsFrom.eq_def]
    simp only []
    rw [hfold]
    by_cases hc : (scanRow img dom y subW).2.2 = true ∧ y ≠ img.height - 1
    · rw [if_pos hc]
      exact ih (y + 1) _ subH pos (streak + 1) hw'
    · rw [if_neg hc]
      cases hls : (scanRow img dom y subW).1 with
      | none => exact ih (y + 1) _ subH pos 0 hw'
      | some p =>
        simp only []
        by_cases hlt : subH < streak
        · rw [if_pos hlt]
          exact ih (y + 1) _ streak _ 0 hw'
        · rw [if_neg hlt]
          exact ih (y + 1) _ subH pos 0 hw'

/-- Invariant of the outer loop: the width and height accumulators stay
nonnegative, and any recorded starting position has nonnegative
coordinates (the streak counter never exceeds the current row index, so
`line_start.y - streak` cannot go below zero). -/
lemma scanRowsFrom_inv (img : Img) (dom : Color) (fuel : Nat) :
    ∀ (y : Nat) (subW subH : Int) (pos : Option (Int × Int)) (streak : Int),
      0 ≤ subW → 0 ≤ subH → 0 ≤ streak → streak ≤ (y : Int) →
      (∀ p, pos = some p → 0 ≤ p.1 ∧ 0 ≤ p.2) →
      0 ≤ (scanRowsFrom img dom y fuel subW subH pos streak).2.1 ∧
        0 ≤ (scanRowsFrom img dom y fuel subW subH pos streak).2.2 ∧
        ∀ p, (scanRowsFrom img dom y fuel subW subH pos streak).1 = some p →
          0 ≤ p.1 ∧ 0 ≤ p.2 := by
  induction fuel with
  | zero =>
    intro y subW subH pos streak hw hh hs hsy hpos
    exact ⟨hw, hh, hpos⟩
  | succ f ih =>
    intro y subW subH pos streak hw hh hs hsy hpos
    have hrow := scanRow_subW img dom y subW hw
    have hw' : 0 ≤ (scanRow img dom y subW).2.1 := by
      rw [hrow]; exact le_trans hw (le_max_left _ _)
    rw [scanRowsFrom.eq_def]
    simp only []
    by_cases hc : (scanRow img dom y subW).2.2 = true ∧ y ≠ img.height - 1
    · rw [if_pos hc]
      refine ih (y + 1) _ subH pos (streak + 1) hw' hh (by omega) (by push_cast; omega) hpos
    · rw [if_neg hc]
      cases hls : (scanRow img dom y subW).1 with
      | none => exact ih (y + 1) _ subH pos 0 hw' hh le_rfl (by positivity) hpos
      | some p =>
        have hp2 : p.2 = y := by
          refine scanRowFrom_lineStart_row img dom y img.width 0
            ((img.width / 2 : Nat) : Int) none none subW ?_ p hls
          intro q hq
          cases hq
        simp only []
        by_cases hlt : subH < streak
        · rw [if_pos hlt]
          refine ih (y + 1) _ streak _ 0 hw' hs le_rfl (by positivity) ?_
          intro q hq
          cases hq
          constructor
          · positivity
          · rw [hp2]
            omega
        · rw [if_neg hlt]
          exact ih (y + 1) _ subH pos 0 hw' hh le_rfl (by positivity) hpos


/-- If the outer loop never records a starting position, the substitute
height is never set either: `substitute_height` is only assigned in the
branch that also assigns `starting_position`. -/
lemma scanRowsFrom_heightZero (img : Img) (dom : Color) (fuel : Nat) :
    ∀ (y : Nat) (subW subH : Int) (pos : Option (Int × Int)) (streak : Int),
      (pos = none → subH = 0) →
      ((scanRowsFrom img dom y fuel subW subH pos streak).1 = none →
        (scanRowsFrom img dom y fuel subW subH pos streak).2.2 = 0) := by
  induction fuel with
  | zero =>
    intro y subW subH pos streak hinv
    exact hinv
  | succ f ih =>
    intro y subW subH pos streak hinv
    rw [scanRowsFrom.eq_def]
    simp only []
    by_cases hc : (scanRow img dom y subW).2.2 = true ∧ y ≠ img.height - 1
    · rw [if_pos hc]
      exact ih (y + 1) _ subH pos (streak + 1) hinv
    · rw [if_neg hc]
      cases hls : (scanRow img dom y subW).1 with
      | none => exact ih (y + 1) _ subH pos 0 hinv
      | some p =>
        simp only []
        by_cases hlt : subH < streak
        · rw [if_pos hlt]
          exact ih (y + 1) _ streak _ 0 (fun hq => by cases hq)
        · rw [if_neg hlt]
          exact ih (y + 1) _ subH pos 0 hinv

/-- An undefined starting position forces a zero substitute height. -/
lemma find_placement_none_height (img : Img) (dom : Color) :
    (find_placement img dom).1 = none → (find_placement img dom).2.2 = 0 := by
  rw [find_placement]
  exact scanRowsFrom_heightZero img dom img.height 0 0 0 none 0 (fun _ => rfl)

/-! ### Claim theorems -/

set_option maxRecDepth 8000

/-- C2: the `substitute_width` returned by `find_placement` is the single
global running maximum, over every row of the image, of the distance from
the first to the last dissimilar pixel the scan sees in that row,
accumulated across the entire scan and never reset between rows or
candidate rectangles. -/
theorem claim_C2_width_is_global_row_max (img : Img) (dom : Color) :
    (find_placement img dom).2.1
      = ((List.range img.height).map (rowSpanVal img dom)).foldl max 0 := by
  rw [find_placement, scanRowsFrom_subW img dom img.height 0 0 0 none 0 le_rfl,
    List.range_eq_range']

/-- C6 (amended): a row of the scan is rejected iff the tolerance budget
`width / 2` is at least one and the row contains at least that many pixels
similar to the dominant color.  In particular a row with exactly
`width / 2` similar pixels is already rejected, and for images of width at
most one (budget zero) no row is ever rejected. -/
theorem claim_C6_row_budget (img : Img) (dom : Color) (y : Nat) (subW : Int) :
    (scanRow img dom y subW).2.2 = false ↔
      1 ≤ img.width / 2 ∧ img.width / 2 ≤ countSimRow img dom y := by
  rw [scanRow, scanRowFrom_passed_iff img dom y img.width 0
    ((img.width / 2 : Nat) : Int) none none subW, countSimRow]
  omega

/-- C6 counterexample: in a width-2 row with exactly one similar pixel
(equal to the claimed budget of `2 / 2 = 1`, hence inside it) the scan
still rejects the row, and in a width-1 row whose single pixel is similar
(exceeding the claimed budget of `1 / 2 = 0`) the scan still accepts it. -/
theorem claim_C6_counterexample :
    ((scanRow imgHalf2 (0, 0, 0) 0 0).2.2 = false ∧
        countSimRow imgHalf2 (0, 0, 0) 0 = 1 ∧ imgHalf2.width / 2 = 1) ∧
      ((scanRow imgDark1 (0, 0, 0) 0 0).2.2 = true ∧
        countSimRow imgDark1 (0, 0, 0) 0 = 1 ∧ imgDark1.width / 2 = 0) := by
  decide

/-- C9: the size components returned by `find_placement` are never
negative, and whenever the returned starting position is defined both of
its coordinates are nonnegative. -/
theorem claim_C9_rectangle_nonnegative (img : Img) (dom : Color) :
    0 ≤ (find_placement img dom).2.1 ∧ 0 ≤ (find_placement img dom).2.2 ∧
      ∀ p, (find_placement img dom).1 = some p → 0 ≤ p.1 ∧ 0 ≤ p.2 := by
  rw [find_placement]
  refine scanRowsFrom_inv img dom img.height 0 0 0 none 0 le_rfl le_rfl le_rfl
    (by positivity) ?_
  intro p hp
  cases hp

/-- C9 witness: on a concrete 2-by-2 non-white image the located position
is defined, and the theorem yields its nonnegativity. -/
theorem claim_C9_rectangle_nonnegative_witness :
    (find_placement imgDark2 whiteColor).1 = some (0, 0) ∧
      0 ≤ (0 : Int) ∧ 0 ≤ (0 : Int) :=
  ⟨by decide, (claim_C9_rectangle_nonnegative imgDark2 whiteColor).2.2 (0, 0) (by decide)⟩

/-- C1: for a stored substitution attempt (all three fields present, on a
template of positive area), `validate_last_substitution` returns `true`
iff the coverage ratio lies inclusively between the thresholds and the
placed rectangle is fully contained in the template. -/
theorem claim_C1_validator_iff (st : GenState) (t s : Img) (pos : Int × Int)
    (tmin tmax : ℚ)
    (ht : st.last_template = some t)
    (hs : st.last_resized_substitute = some s)
    (hp : st.last_placement_position = some pos)
    (htw : 0 < t.width) (hth : 0 < t.height) :
    validate_last_substitution st tmin tmax = Except.ok true ↔
      ((tmin ≤ ((s.width : ℚ) * s.height) / ((t.width : ℚ) * t.height) ∧
          ((s.width : ℚ) * s.height) / ((t.width : ℚ) * t.height) ≤ tmax) ∧
        (0 ≤ pos.1 ∧ 0 ≤ pos.2 ∧ pos.1 + (s.width : Int) ≤ (t.width : Int) ∧
          pos.2 + (s.height : Int) ≤ (t.height : Int))) := by
  rw [validate_last_substitution.eq_def, ht, hs, hp]
  simp only []
  by_cases h1 : tmin ≤ ((s.width : ℚ) * s.height) / ((t.width : ℚ) * t.height) ∧
      ((s.width : ℚ) * s.height) / ((t.width : ℚ) * t.height) ≤ tmax
  · rw [if_neg (not_not_intro h1)]
    by_cases h2 : pos.1 < 0 ∨ pos.2 < 0 ∨ pos.1 + (s.width : Int) > (t.width : Int) ∨
        pos.2 + (s.height : Int) > (t.height : Int)
    · rw [if_pos h2]
      constructor
      · intro h; exact absurd h (by simp)
      · intro h
        obtain ⟨-, c1, c2, c3, c4⟩ := h
        rcases h2 with h2 | h2 | h2 | h2 <;> omega
    · rw [if_neg h2]
      push_neg at h2
      obtain ⟨c1, c2, c3, c4⟩ := h2
      exact iff_of_true rfl ⟨h1, c1, c2, c3, c4⟩
  · rw [if_pos h1]
    constructor
    · intro h; exact absurd h (by simp)
    · intro h; exact absurd h.1 h1

/-- C1 witness: the stored 5-by-5-substitute-on-10-by-10-template attempt
instantiates the validator characterization at the default thresholds. -/
theorem claim_C1_validator_iff_witness :
    validate_last_substitution stAttempt (1 / 10) (9 / 10) = Except.ok true ↔
      (((1 : ℚ) / 10 ≤ ((imgSub5.width : ℚ) * imgSub5.height) /
            ((imgTemplate10.width : ℚ) * imgTemplate10.height) ∧
          ((imgSub5.width : ℚ) * imgSub5.height) /
            ((imgTemplate10.width : ℚ) * imgTemplate10.height) ≤ 9 / 10) ∧
        (0 ≤ ((0 : Int), (0 : Int)).1 ∧ 0 ≤ ((0 : Int), (0 : Int)).2 ∧
          ((0 : Int), (0 : Int)).1 + (imgSub5.width : Int) ≤ (imgTemplate10.width : Int) ∧
          ((0 : Int), (0 : Int)).2 + (imgSub5.height : Int) ≤ (imgTemplate10.height : Int))) :=
  claim_C1_validator_iff stAttempt imgTemplate10 imgSub5 (0, 0) (1 / 10) (9 / 10)
    rfl rfl rfl (by decide) (by decide)

/-- C3: `validate_last_substitution` fails with the state error iff no
substitution attempt exists: it raises on the fresh generator state, and
every completed `substitute` call stores all three state fields (position,
resized substitute and pasted template), after which validation returns a
boolean rather than raising.  In particular a call whose region location
finds no position never completes — the undefined position forces a zero
substitute height and the resize collaborator raises first. -/
theorem claim_C3_state_error_iff_no_attempt (tmin tmax : ℚ) :
    validate_last_substitution initState tmin tmax
        = Except.error SubError.stateError ∧
      ∀ (kf : List Color → Int → List Color) (st : GenState)
        (template sub : Img) (ud : Bool) (k : Int)
        (rt : Option (Nat × Nat)) (st2 : GenState) (img : Img),
        substitute kf st template sub ud k rt = Except.ok (st2, img) →
        ∃ b, validate_last_substitution st2 tmin tmax = Except.ok b := by
  constructor
  · rfl
  · intro kf st template sub ud k rt st2 img h
    cases rt with
    | some sz =>
      rw [substitute] at h
      cases hres : imgResize sub ((sz.1 : Int), (sz.2 : Int)) with
      | error e => rw [hres] at h; simp [Except.bind] at h
      | ok resized =>
        rw [hres] at h
        simp only [Except.bind, Except.ok.injEq, Prod.mk.injEq] at h
        obtain ⟨hst, _⟩ := h
        rw [← hst]
        rw [validate_last_substitution.eq_def]
        simp only []
        split_ifs <;> exact ⟨_, rfl⟩
    | none =>
      rw [substitute] at h
      cases hdc : dominant_color_choice kf template ud k with
      | error e => rw [hdc] at h; simp [Except.bind] at h
      | ok dc =>
        rw [hdc] at h
        simp only [Except.bind] at h
        cases hres : imgResize sub (find_placement template dc).2 with
        | error e => rw [hres] at h; simp [Except.bind] at h
        | ok resized =>
          rw [hres] at h
          simp only [Except.bind, Except.ok.injEq, Prod.mk.injEq] at h
          obtain ⟨hst, _⟩ := h
          rw [← hst]
          rw [validate_last_substitution.eq_def]
          rcases hq : (find_placement template dc).1 with _ | p
          · exfalso
            have h0 := find_placement_none_height template dc hq
            rw [imgResize] at hres
            rw [if_pos (Or.inr (by rw [h0]; norm_num))] at hres
            exact Except.noConfusion hres
          · simp only []
            split_ifs <;> exact ⟨_, rfl⟩

/-- C3 witness: a completed explicit-resize `substitute` call on concrete
inputs, after which validation returns a boolean. -/
theorem claim_C3_state_error_iff_no_attempt_witness :
    ∃ b, validate_last_substitution subW55res.1 (1 / 10) (9 / 10)
      = Except.ok b :=
  (claim_C3_state_error_iff_no_attempt (1 / 10) (9 / 10)).2 kfZero initState
    imgWhite1 imgWhite1 false 3 (some (5, 5)) subW55res.1 subW55res.2 (by rfl)

/-- C4 (amended): when region location returns an undefined position and no
explicit size override is given, `substitute` does fail with an error and
never pastes — but not by a rejection before the resize: the undefined
position forces a zero substitute height, and the error is the one the
attempted resize to a zero dimension raises. -/
theorem claim_C4_undefined_position_resize_error
    (kf : List Color → Int → List Color) (st : GenState) (template sub : Img)
    (ud : Bool) (k : Int) (dc : Color)
    (hdc : dominant_color_choice kf template ud k = Except.ok dc)
    (hpos : (find_placement template dc).1 = none) :
    substitute kf st template sub ud k none
      = Except.error SubError.resizeError := by
  have h0 : (find_placement template dc).2.2 = 0 :=
    find_placement_none_height template dc hpos
  rw [substitute, hdc]
  simp only [Except.bind]
  rw [imgResize]
  rw [if_pos (Or.inr (by rw [h0]; norm_num))]

/-- C4 witness: a 2-by-2 all-white template on which the locator finds no
position, so the default `substitute` call surfaces the resize error. -/
theorem claim_C4_undefined_position_resize_error_witness :
    substitute kfZero initState imgWhite2 imgWhite1 false 5 none
      = Except.error SubError.resizeError :=
  claim_C4_undefined_position_resize_error kfZero initState imgWhite2 imgWhite1
    false 5 whiteColor rfl (by decide)

/-- C4 counterexample: on the all-white 1-by-1 template with no override,
the failure `substitute` reports is the resize collaborator's own error —
the resize is attempted and is what raises, so the rejection does not
happen before a resize is attempted. -/
theorem claim_C4_counterexample :
    substitute kfZero initState imgWhite1 imgWhite1 false 3 none
      = Except.error SubError.resizeError := by
  rfl

/-- C5 (amended): a malformed cluster range (minimum greater than maximum)
makes Python's `range` empty, so `substitute_until_valid` performs no
attempt at all and returns `None` with the state untouched — no
InvalidParameter error is raised. -/
theorem claim_C5_malformed_range_returns_none
    (kf : List Color → Int → List Color) (st : GenState) (template sub : Img)
    (initial : Bool) (r : Int × Int) (h : r.2 < r.1) :
    substitute_until_valid kf st template sub initial r
      = Except.ok (st, none) := by
  have hempty : pyRange r.1 (r.2 + 1) = [] := by
    rw [pyRange]
    have h0 : (r.2 + 1 - r.1).toNat = 0 := by omega
    rw [h0]
    rfl
  rw [substitute_until_valid, variantsList, hempty]
  simp [untilValidGo]

/-- C5 witness: the malformed range `(5, 3)` on concrete inputs. -/
theorem claim_C5_malformed_range_returns_none_witness :
    (3 : Int) < 5 ∧
      substitute_until_valid kfZero initState imgWhite1 imgWhite1 false (5, 3)
        = Except.ok (initState, none) :=
  ⟨by decide, claim_C5_malformed_range_returns_none kfZero initState imgWhite1
    imgWhite1 false (5, 3) (by decide)⟩

/-- C5 counterexample: with the malformed range `(5, 3)` the search does
not surface an InvalidParameter error — it returns normally. -/
theorem claim_C5_counterexample :
    substitute_until_valid kfZero initState imgWhite1 imgWhite1 false (5, 3)
      ≠ Except.error SubError.invalidParameter := by
  intro h
  rw [show substitute_until_valid kfZero initState imgWhite1 imgWhite1 false (5, 3)
      = Except.ok (initState, none) from rfl] at h
  exact Except.noConfusion h

/-- C7 (amended): the white fallback is keyed on the clustering toggle, not
on the cluster count: with clustering disabled the dominant color is white
for every cluster count, every image and every clustering routine (so no
pixel is examined), while a cluster count of 0 with clustering enabled is
handed to the clusterer, which rejects it with an error instead of
returning white. -/
theorem claim_C7_white_on_toggle_not_k
    (kf kf2 : List Color → Int → List Color) (template template2 : Img)
    (k : Int) :
    dominant_color_choice kf template false k = Except.ok whiteColor ∧
      dominant_color_choice kf2 template2 true 0
        = Except.error SubError.invalidParameter :=
  ⟨rfl, rfl⟩

/-- C7 counterexample: a `substitute` call with cluster count 0 and
clustering enabled does not use white — it raises the clusterer's
invalid-parameter error, refuting "k = 0 yields white without examining
pixels" as a property of the cluster count. -/
theorem claim_C7_counterexample :
    substitute kfZero initState imgWhite1 imgWhite1 true 0 none
      = Except.error SubError.invalidParameter := by
  rfl

/-- The evaluated-variant log of the retry loop stays duplicate-free: every
evaluated variant is recorded in `tried_variants`, and a variant found
there is skipped before evaluation. -/
lemma untilValidGo_evald_nodup (kf : List Color → Int → List Color)
    (template sub : Img) :
    ∀ (vs tried : List (Bool × Int)) (st : GenState) (evald : List (Bool × Int)),
      evald.Nodup → (∀ v, v ∈ evald → v ∈ tried) →
      ((untilValidGo kf template sub vs tried st evald).2).Nodup := by
  intro vs
  induction vs with
  | nil =>
    intro tried st evald h1 h2
    exact h1
  | cons v vs ih =>
    intro tried st evald h1 h2
    rw [untilValidGo.eq_def]
    simp only []
    by_cases hmem : v ∈ tried
    · rw [if_pos hmem]
      exact ih tried st evald h1 h2
    · rw [if_neg hmem]
      have hev : v ∉ evald := fun hv => hmem (h2 v hv)
      have h1' : (evald ++ [v]).Nodup := by
        simp [List.nodup_append, h1, hev]
      have h2' : ∀ x, x ∈ evald ++ [v] → x ∈ v :: tried := by
        intro x hx
        rcases List.mem_append.mp hx with hx | hx
        · exact List.mem_cons_of_mem v (h2 x hx)
        · simp only [List.mem_singleton] at hx
          rw [hx]
          exact List.mem_cons_self v tried
      cases hsub : substitute kf st template sub v.1 v.2 none with
      | error e => exact h1'
      | ok pr =>
        obtain ⟨st1, im⟩ := pr
        simp only []
        cases hval : validate_last_substitution st1 (1 / 10) (9 / 10) with
        | error e => exact h1'
        | ok b =>
          cases b with
          | true => exact h1'
          | false => exact ih (v :: tried) st1 (evald ++ [v]) h1' h2'

/-- C8: a single `substitute_until_valid` search never evaluates the same
`(use_dominant_color, cluster_amount)` pair twice, for every initial
toggle and cluster range (the two toggle passes and the dedup set make the
evaluated log duplicate-free). -/
theorem claim_C8_no_variant_evaluated_twice
    (kf : List Color → Int → List Color) (st : GenState) (template sub : Img)
    (initial : Bool) (r : Int × Int) :
    (evaluatedVariants kf st template sub initial r).Nodup := by
  refine untilValidGo_evald_nodup kf template sub
    (variantsList initial r) [] st [] List.nodup_nil ?_
  intro v hv
  cases hv

/-- C10: with clustering disabled and no resize override, the result of
`substitute` — the returned image and the stored attempt state — does not
depend on the cluster-count parameter. -/
theorem claim_C10_cluster_amount_irrelevant_when_disabled
    (kf : List Color → Int → List Color) (st : GenState) (template sub : Img)
    (k k2 : Int) :
    substitute kf st template sub false k none
      = substitute kf st template sub false k2 none := rfl
